import Mathlib

/-!
Verification development for the RAPL energy tracer (src/main.py).

The sampling engine of `ProcessEnergyTracer.trace_energy` is embedded shallowly:
- machine reads become input maps `String -> Option Nat` (None = failed MSR read),
- float arithmetic is modelled over the rationals,
- the body of one elapsed sampling tick (the `if elapsed >= self.sample_interval`
  block) becomes `Rapl.step`, returning `Except Rapl.StepError Rapl.TracerState`
  because the Python code can raise uncaught KeyError / TypeError there,
- the CSV exporter pivot and summary of `export_to_csv` become pure functions
  on the final state.
-/

namespace Rapl

/-- The keys of the `self.domains` dict, in insertion (iteration) order. -/
def domainNames : List String := ["package", "cpu", "uncore", "dram", "psys"]

def dPackage : String := "package"
def dCpu : String := "cpu"
def dUncore : String := "uncore"
def dDram : String := "dram"
def dPsys : String := "psys"

/-- Display labels of `RaplDomain.name` for each dict key. -/
def displayName : String → String
  | "package" => "Package"
  | "cpu" => "CPU Cores"
  | "uncore" => "Uncore"
  | "dram" => "DRAM"
  | "psys" => "Platform Total"
  | _ => ""

/-- The dict returned by `get_process_info` (fields used by the engine). -/
structure ProcInfo where
  procState : String
  cpu : Int
  runtime : Int
  voluntarySwitches : Int
  nonvoluntarySwitches : Int
deriving DecidableEq

/-- One element of `RaplDomain.intervals`. -/
structure IntervalRec where
  time : ℚ
  energy : ℚ
  power : ℚ
  cpu : Int
deriving DecidableEq

/-- The mutable per-domain fields of `RaplDomain`. -/
structure DomainState where
  totalEnergy : ℚ
  intervals : List IntervalRec
deriving DecidableEq

/-- Immutable tracer configuration (`pid`, `self.energy_units`, `self.cpu`). -/
structure Config where
  pid : Option Int
  energyUnits : ℚ
  monitorCpu : Int

/-- The loop state of `trace_energy`: `last_runtime`, `last_readings`
(a dict, `none` marks an absent key), and the `self.domains` map. -/
structure TracerState where
  lastRuntime : Int
  lastReadings : String → Option ℚ
  domains : String → DomainState

/-- The environment of one elapsed tick: the wall-clock values, the result of
`get_process_info` (as read from /proc), and the raw MSR values offered to
`read_energy_all_domains` (`none` = the read raised IOError). -/
structure TickInput where
  time : ℚ
  elapsed : ℚ
  info : Option ProcInfo
  raw : String → Option Nat

/-- The uncaught Python exceptions that the tick body can raise. -/
inductive StepError where
  | keyError : String → StepError
  | typeError : StepError
deriving DecidableEq

/-- One entry of the dict built by `read_energy_all_domains`: present only for
keys of `self.domains` whose MSR read succeeded, scaled by `energy_units`. -/
def readOne (cfg : Config) (raw : String → Option Nat) (n : String) : Option ℚ :=
  if n ∈ domainNames then (raw n).map (fun v => (v : ℚ) * cfg.energyUnits) else none

/-- The state right before the loop: `last_runtime = 0`, `last_readings`
is a copy of the baseline `read_energy_all_domains()`, all domains fresh. -/
def initState (cfg : Config) (baselineRaw : String → Option Nat) : TracerState :=
  { lastRuntime := 0
    lastReadings := fun n => readOne cfg baselineRaw n
    domains := fun _ => { totalEnergy := 0, intervals := [] } }

/-- Python truthiness of `self.pid` (as used by `if self.pid:`). -/
def pidTruthy (cfg : Config) : Bool :=
  match cfg.pid with
  | none => false
  | some p => p != 0

/-- `get_process_info` returns `None` immediately when `self.pid is None`;
otherwise it returns whatever /proc offered this tick. -/
def effInfo (cfg : Config) (inp : TickInput) : Option ProcInfo :=
  if cfg.pid = none then none else inp.info

/-- `runtime_diff`: `info['runtime'] - last_runtime` when `info` is truthy,
else the initial value 0. -/
def tickRuntimeDiff (cfg : Config) (st : TracerState) (inp : TickInput) : Int :=
  match effInfo cfg inp with
  | some i => i.runtime - st.lastRuntime
  | none => 0

/-- `info['cpu'] if self.pid else self.cpu`, evaluated on a committing tick.
The inner `none` arm is unreachable on a committing tick (committing with a
truthy pid forces `info` to be present). -/
def tickCpuVal (cfg : Config) (inp : TickInput) : Int :=
  if pidTruthy cfg then
    match effInfo cfg inp with
    | some i => i.cpu
    | none => 0
  else cfg.monitorCpu

/-- The body of the committing `for domain_name in current_readings.keys()`
loop for one domain: skip keys absent from `current_readings`; raise
`KeyError` when `last_readings[domain_name]` is absent; otherwise append the
IntervalRecord and add `energy_diff` to the running total. -/
def commitDomain (cfg : Config) (inp : TickInput) (cpuVal : Int)
    (st : TracerState) (n : String) : Except StepError TracerState :=
  match readOne cfg inp.raw n with
  | none => .ok st
  | some cur =>
    match st.lastReadings n with
    | none => .error (.keyError n)
    | some prev =>
      let energyDiff := cur - prev
      let pow := energyDiff / inp.elapsed
      .ok { st with
        domains := fun m =>
          if m = n then
            { totalEnergy := (st.domains n).totalEnergy + energyDiff
              intervals := (st.domains n).intervals ++
                [{ time := inp.time, energy := energyDiff, power := pow, cpu := cpuVal }] }
          else st.domains m }

/-- The committing loop over the domain keys, with exception propagation. -/
def commitLoop (cfg : Config) (inp : TickInput) (cpuVal : Int) :
    TracerState → List String → Except StepError TracerState
  | st, [] => .ok st
  | st, n :: rest =>
    match commitDomain cfg inp cpuVal st n with
    | .ok st' => commitLoop cfg inp cpuVal st' rest
    | .error e => .error e

/-- One elapsed sampling tick (the `if elapsed >= self.sample_interval` body):
commit when `runtime_diff > 0 or self.pid is None`; then
`if self.pid: last_runtime = info['runtime']` (TypeError when `info` is None);
finally `last_readings = current_readings` unconditionally. -/
def step (cfg : Config) (st : TracerState) (inp : TickInput) :
    Except StepError TracerState :=
  let committed : Except StepError TracerState :=
    if 0 < tickRuntimeDiff cfg st inp ∨ cfg.pid = none then
      commitLoop cfg inp (tickCpuVal cfg inp) st domainNames
    else .ok st
  match committed with
  | .error e => .error e
  | .ok st1 =>
    if pidTruthy cfg then
      match effInfo cfg inp with
      | some i =>
        .ok { st1 with lastRuntime := i.runtime
                       lastReadings := fun n => readOne cfg inp.raw n }
      | none => .error .typeError
    else
      .ok { st1 with lastReadings := fun n => readOne cfg inp.raw n }

/-- The sampling loop over a list of elapsed ticks, stopping at the first
uncaught exception. -/
def run (cfg : Config) : TracerState → List TickInput → Except StepError TracerState
  | st, [] => .ok st
  | st, inp :: rest =>
    match step cfg st inp with
    | .ok st' => run cfg st' rest
    | .error e => .error e

/-- Length of a domain interval list after a (possibly failed) run segment. -/
def intervalsLenAfter (r : Except StepError TracerState) (n : String) : Option Nat :=
  r.toOption.map fun st => (st.domains n).intervals.length

/-- Running total of a domain after a (possibly failed) run segment. -/
def totalAfter (r : Except StepError TracerState) (n : String) : Option ℚ :=
  r.toOption.map fun st => (st.domains n).totalEnergy

/-- The `last_readings` entry of a domain after a (possibly failed) run segment. -/
def lastReadingAfter (r : Except StepError TracerState) (n : String) :
    Option (Option ℚ) :=
  r.toOption.map fun st => st.lastReadings n

/-- Energy of the first committed interval of a domain, when the run segment
succeeded and the domain has one. -/
def energyFirstAfter (r : Except StepError TracerState) (n : String) : Option ℚ :=
  r.toOption.bind fun st => ((st.domains n).intervals.head?).map (fun iv => iv.energy)

/-! ### Exporter (`export_to_csv`) -/

/-- The row key `f"{interval['time']:.3f}"` modelled as the rational rounded
to three decimal places (the CSV writer later parses it back with `float`). -/
def round3 (q : ℚ) : ℚ := (round (q * 1000) : ℤ) / 1000

/-- The (domain, interval) pairs in the traversal order of the collection
loop of `export_to_csv`: dict order over domains, append order inside. -/
def allIntervals (st : TracerState) : List (String × IntervalRec) :=
  domainNames.flatMap fun n => (st.domains n).intervals.map fun iv => (n, iv)

/-- The key set of the `energy_data` dict (one key per distinct formatted
timestamp). -/
def energyKeys (st : TracerState) : Finset ℚ :=
  ((allIntervals st).map fun p => round3 p.2.time).toFinset

/-- The key set of the `power_data` dict, built by the same collection loop. -/
def powerKeys (st : TracerState) : Finset ℚ :=
  ((allIntervals st).map fun p => round3 p.2.time).toFinset

/-- `sorted(energy_data.keys(), key=float)`: the energy-matrix row keys in
ascending numeric order. -/
def energyRowKeys (st : TracerState) : List ℚ :=
  (energyKeys st).sort (· ≤ ·)

/-- `sorted(power_data.keys(), key=float)`: the power-matrix row keys in
ascending numeric order. -/
def powerRowKeys (st : TracerState) : List ℚ :=
  (powerKeys st).sort (· ≤ ·)

/-- `cpu_data[t]`: the last write wins across the collection traversal;
`defaultdict(int)` yields 0 for a never-written key. -/
def cpuData (st : TracerState) (t : ℚ) : Int :=
  match ((allIntervals st).filter fun p => decide (round3 p.2.time = t)).getLast? with
  | some p => p.2.cpu
  | none => 0

/-- `energy_data[t].get(domain_name, 0)`: the last interval of the domain
with this row key wins; 0 when the domain has none. -/
def energyCell (st : TracerState) (t : ℚ) (n : String) : ℚ :=
  match ((st.domains n).intervals.filter fun iv => decide (round3 iv.time = t)).getLast? with
  | some iv => iv.energy
  | none => 0

/-- `power_data[t].get(domain_name, 0)`, same shape as `energyCell`. -/
def powerCell (st : TracerState) (t : ℚ) (n : String) : ℚ :=
  match ((st.domains n).intervals.filter fun iv => decide (round3 iv.time = t)).getLast? with
  | some iv => iv.power
  | none => 0

/-- One row of the energy matrix: key, per-domain cells in column order
(package, core, uncore, dram, psys), and the cpu column. -/
def energyRow (st : TracerState) (t : ℚ) : ℚ × List ℚ × Int :=
  (t, domainNames.map (energyCell st t), cpuData st t)

/-- One row of the power matrix, same shape as `energyRow`. -/
def powerRow (st : TracerState) (t : ℚ) : ℚ × List ℚ × Int :=
  (t, domainNames.map (powerCell st t), cpuData st t)

/-- The body of the `_energy.csv` file. -/
def energyTable (st : TracerState) : List (ℚ × List ℚ × Int) :=
  (energyRowKeys st).map (energyRow st)

/-- The body of the `_power.csv` file. -/
def powerTable (st : TracerState) : List (ℚ × List ℚ × Int) :=
  (powerRowKeys st).map (powerRow st)

/-- `max(powers)` of a nonempty Python list (the empty arm is unreachable
behind the `if domain.intervals:` guard). -/
def listMax : List ℚ → ℚ
  | [] => 0
  | x :: xs => xs.foldl max x

/-- `min(powers)` of a nonempty Python list, same guard as `listMax`. -/
def listMin : List ℚ → ℚ
  | [] => 0
  | x :: xs => xs.foldl min x

/-- One row of the `_summary.csv` file. -/
structure SummaryRow where
  domain : String
  totalEnergy : ℚ
  avgPower : ℚ
  maxPower : ℚ
  minPower : ℚ
deriving DecidableEq

/-- The summary writer loop: one row per domain of the dict, but only when
`domain.intervals` is nonempty. -/
def summaryRows (st : TracerState) : List SummaryRow :=
  domainNames.filterMap fun n =>
    let d := st.domains n
    if d.intervals.isEmpty then none
    else
      let powers := d.intervals.map (fun iv => iv.power)
      some { domain := displayName n
             totalEnergy := d.totalEnergy
             avgPower := powers.sum / (powers.length : ℚ)
             maxPower := listMax powers
             minPower := listMin powers }

/-- Domain labels of the exported summary rows after a run segment. -/
def summaryNamesAfter (r : Except StepError TracerState) : Option (List String) :=
  r.toOption.map fun st => (summaryRows st).map (fun row => row.domain)

/-- Modelled from the spec: the wraparound-corrected raw counter delta that
section 4.2 requires (a negative raw delta is corrected by adding the modulus
of the fixed-width register). The source `trace_energy` has no such
correction; it subtracts the scaled readings directly. -/
def specCorrectedRawDelta (modulus prev cur : ℤ) : ℤ :=
  if cur - prev < 0 then cur - prev + modulus else cur - prev

/-! ### Concrete run fixtures -/

/-- A typical RAPL calibration unit, 61 microjoule per count. -/
def unitW : ℚ := 61 / 1000000

/-- A process snapshot with the given cumulative runtime. -/
def infoW (rt : Int) : ProcInfo :=
  { procState := "S", cpu := 2, runtime := rt
    voluntarySwitches := 3, nonvoluntarySwitches := 4 }

def cfgC1 : Config := { pid := some 1234, energyUnits := unitW, monitorCpu := 0 }

def baseC1 : String → Option Nat := fun n => if n = dPackage then some 1000 else none

def inpC1 : TickInput :=
  { time := 1, elapsed := 1, info := none
    raw := fun n => if n = dPackage then some 1100 else none }

/-- C1: with pid 1234 configured, when the process disappears on a tick
(`get_process_info` returns None), the tick body reaches
`last_runtime = info['runtime']` with `info = None` and raises an uncaught
TypeError: the loop does not terminate cleanly and no final report is
reachable, contradicting the claim. -/
theorem c1_process_gone_typeerror :
    step cfgC1 (initState cfgC1 baseC1) inpC1 = .error .typeError := rfl

def cfgC2 : Config := { pid := none, energyUnits := unitW, monitorCpu := 0 }

def baseC2 : String → Option Nat :=
  fun n => if n = dPackage then some 4294967294 else none

def inpC2 : TickInput :=
  { time := 1, elapsed := 1, info := none
    raw := fun n => if n = dPackage then some 1 else none }

/-- C2: on the raw reading sequence [2^32 - 2, 1] (a wrapped 32-bit counter)
the engine commits the plainly subtracted, strictly negative energy delta
`(1 - (2^32 - 2)) * unit`: no modulus correction exists in the code. The
spec-modelled corrected delta at the same input is `(2^32 - (2^32 - 2)) + 1 = 3`,
as the claim requires. -/
theorem c2_wraparound_negative_delta :
    energyFirstAfter (run cfgC2 (initState cfgC2 baseC2) [inpC2]) dPackage
      = some ((1 - 4294967294) * unitW) ∧
    (1 - 4294967294 : ℚ) * unitW < 0 ∧
    specCorrectedRawDelta (2 ^ 32) (2 ^ 32 - 2) 1 = (2 ^ 32 - (2 ^ 32 - 2)) + 1 := by
  refine ⟨?_, by norm_num [unitW], ?_⟩
  · simp [energyFirstAfter, Except.toOption, run, step, commitLoop, commitDomain, readOne, initState,
      effInfo, tickRuntimeDiff, tickCpuVal, pidTruthy, cfgC2, baseC2, inpC2, domainNames,
      dPackage, dCpu, dUncore, dDram, dPsys]
    norm_num [unitW]
  · norm_num [specCorrectedRawDelta]

def cfgC4 : Config := { pid := none, energyUnits := unitW, monitorCpu := 0 }

def baseC4 : String → Option Nat :=
  fun n => if n = dPackage then some 1000 else if n = dDram then some 500 else none

def inpC4a : TickInput :=
  { time := 1, elapsed := 1, info := none
    raw := fun n => if n = dPackage then some 2000 else none }

def inpC4b : TickInput :=
  { time := 2, elapsed := 1, info := none
    raw := fun n => if n = dPackage then some 3000
                    else if n = dDram then some 600 else none }

/-- C4: the dram read fails on tick 1 (tolerated: no data this tick) and
succeeds again on committing tick 2; the committing loop then evaluates
`last_readings['dram']` on a key that tick 1 removed, raising an uncaught
KeyError that aborts the whole run, contradicting the claim. -/
theorem c4_domain_recovery_keyerror :
    run cfgC4 (initState cfgC4 baseC4) [inpC4a, inpC4b]
      = .error (.keyError dDram) := rfl

def cfgC3 : Config := { pid := some 77, energyUnits := unitW, monitorCpu := 0 }

def baseC3 : String → Option Nat := fun n => if n = dPackage then some 1000 else none

def inpC3a : TickInput :=
  { time := 1, elapsed := 1, info := some (infoW 0)
    raw := fun n => if n = dPackage then some 2000 else none }

def inpC3b : TickInput :=
  { time := 2, elapsed := 1, info := some (infoW 5)
    raw := fun n => if n = dPackage then some 3000 else none }

/-- C3 counterexample: pid 77 is configured; tick 1 has zero runtime delta
and is skipped while the package counter moves 1000 -> 2000; tick 2 commits.
The committed delta (and the running total) is `(3000 - 2000) * unit`, not the
`(3000 - 1000) * unit` the claim requires: the energy of the skipped tick is
dropped from the totals, because `last_readings` advanced on the skip. -/
theorem c3_skipped_tick_energy_lost :
    energyFirstAfter (run cfgC3 (initState cfgC3 baseC3) [inpC3a, inpC3b]) dPackage
      = some ((3000 - 2000) * unitW) ∧
    totalAfter (run cfgC3 (initState cfgC3 baseC3) [inpC3a, inpC3b]) dPackage
      = some ((3000 - 2000) * unitW) ∧
    (3000 - 2000 : ℚ) * unitW ≠ (3000 - 1000) * unitW := by
  refine ⟨?_, ?_, by norm_num [unitW]⟩ <;>
  · simp [energyFirstAfter, totalAfter, Except.toOption, run, step, commitLoop, commitDomain, readOne,
      initState, effInfo, tickRuntimeDiff, tickCpuVal, pidTruthy, infoW, cfgC3, baseC3,
      inpC3a, inpC3b, domainNames, dPackage, dCpu, dUncore, dDram, dPsys]
    norm_num [unitW]

def cfgC5 : Config := { pid := some 9, energyUnits := unitW, monitorCpu := 0 }

def baseC5 : String → Option Nat := fun n => if n = dPackage then some 1000 else none

def inpC5a : TickInput :=
  { time := 1, elapsed := 1, info := some (infoW 0)
    raw := fun n => if n = dPackage then some 2000
                    else if n = dDram then some 500 else none }

def inpC5b : TickInput :=
  { time := 2, elapsed := 1, info := some (infoW 5)
    raw := fun n => if n = dPackage then some 3000
                    else if n = dDram then some 700 else none }

/-- C5 counterexample: the dram baseline read fails (absent from the initial
`last_readings`), yet after answering on a skipped tick and again on a
committing tick, dram receives an IntervalRecord: a domain failing the
baseline is not dropped for the rest of the run. -/
theorem c5_baseline_failed_domain_rejoins :
    (initState cfgC5 baseC5).lastReadings dDram = none ∧
    intervalsLenAfter (run cfgC5 (initState cfgC5 baseC5) [inpC5a, inpC5b]) dDram
      = some 1 := by
  refine ⟨rfl, by decide⟩

def cfgC8 : Config := { pid := none, energyUnits := unitW, monitorCpu := 0 }

def baseC8 : String → Option Nat := fun n => if n = dPackage then some 1000 else none

def inpC8 : TickInput :=
  { time := 1, elapsed := 1, info := none
    raw := fun n => if n = dPackage then some 2000 else none }

/-- C8 counterexample: after a finished trace in which only the package
domain ever answered, the summary table holds a single row (Package); the
tracked dram domain has no row, so the table is not one row per domain. -/
theorem c8_summary_omits_empty_domain :
    summaryNamesAfter (run cfgC8 (initState cfgC8 baseC8) [inpC8])
      = some [displayName dPackage] ∧
    dDram ∈ domainNames ∧ displayName dDram ∉ [displayName dPackage] := by
  refine ⟨by decide, by decide, by decide⟩

/-! ### General lemmas about one tick -/

theorem readOne_isSome_mem {cfg : Config} {raw : String → Option Nat} {n : String}
    (h : (readOne cfg raw n).isSome = true) : n ∈ domainNames := by
  by_cases hn : n ∈ domainNames
  · exact hn
  · simp [readOne, hn] at h

theorem pidTruthy_ne_none {cfg : Config} (h : pidTruthy cfg = true) : ¬ cfg.pid = none := by
  cases hc : cfg.pid with
  | none => simp [pidTruthy, hc] at h
  | some p => simp [hc]

theorem commitDomain_ok (cfg : Config) (inp : TickInput) (cpuVal : Int) (st : TracerState)
    (n : String)
    (h : (readOne cfg inp.raw n).isSome = true → (st.lastReadings n).isSome = true) :
    ∃ st', commitDomain cfg inp cpuVal st n = .ok st' ∧
      st'.lastReadings = st.lastReadings ∧
      st'.lastRuntime = st.lastRuntime ∧
      (∀ m, m ≠ n → st'.domains m = st.domains m) ∧
      (st'.domains n).intervals.length
        = (st.domains n).intervals.length
          + (if (readOne cfg inp.raw n).isSome = true then 1 else 0) := by
  cases hc : readOne cfg inp.raw n with
  | none =>
    refine ⟨st, ?_, rfl, rfl, fun m _ => rfl, ?_⟩
    · simp [commitDomain, hc]
    · simp [hc]
  | some cur =>
    have hl : (st.lastReadings n).isSome = true := h (by simp [hc])
    cases hp : st.lastReadings n with
    | none => simp [hp] at hl
    | some prev =>
      refine ⟨{ st with domains := fun m =>
          if m = n then
            { totalEnergy := (st.domains n).totalEnergy + (cur - prev)
              intervals := (st.domains n).intervals ++
                [{ time := inp.time, energy := cur - prev,
                   power := (cur - prev) / inp.elapsed, cpu := cpuVal }] }
          else st.domains m }, ?_, rfl, rfl, ?_, ?_⟩
      · simp [commitDomain, hc, hp]
      · intro m hm
        simp [hm]
      · simp [hc]

theorem commitLoop_ok (cfg : Config) (inp : TickInput) (cpuVal : Int) :
    ∀ (names : List String), names.Nodup →
      ∀ st : TracerState,
        (∀ m ∈ names,
          (readOne cfg inp.raw m).isSome = true → (st.lastReadings m).isSome = true) →
        ∃ st', commitLoop cfg inp cpuVal st names = .ok st' ∧
          st'.lastReadings = st.lastReadings ∧
          st'.lastRuntime = st.lastRuntime ∧
          ∀ m, (st'.domains m).intervals.length
            = (st.domains m).intervals.length
              + (if m ∈ names ∧ (readOne cfg inp.raw m).isSome = true then 1 else 0) := by
  intro names
  induction names with
  | nil =>
    intro _ st _
    exact ⟨st, rfl, rfl, rfl, fun m => by simp⟩
  | cons a as ih =>
    intro hnd st h
    have hna : a ∉ as := (List.nodup_cons.mp hnd).1
    have hnas : as.Nodup := (List.nodup_cons.mp hnd).2
    obtain ⟨st1, heq1, hread1, hrt1, hoth1, hlen1⟩ :=
      commitDomain_ok cfg inp cpuVal st a (h a (by simp))
    obtain ⟨st', heq2, hread2, hrt2, hlen2⟩ :=
      ih hnas st1 (fun m hm hs => by
        rw [hread1]
        exact h m (List.mem_cons_of_mem _ hm) hs)
    refine ⟨st', ?_, hread2.trans hread1, hrt2.trans hrt1, ?_⟩
    · simp only [commitLoop, heq1]
      exact heq2
    · intro m
      by_cases hma : m = a
      · subst hma
        rw [hlen2 m, hlen1]
        simp [hna, List.mem_cons]
      · rw [hlen2 m, hoth1 m hma]
        simp [List.mem_cons, hma]

theorem step_ok_core (cfg : Config) (st : TracerState) (inp : TickInput)
    (hprev : ∀ m ∈ domainNames,
      (readOne cfg inp.raw m).isSome = true → (st.lastReadings m).isSome = true)
    (hinfo : pidTruthy cfg = true → inp.info.isSome = true) :
    ∃ st', step cfg st inp = .ok st' ∧
      st'.lastReadings = (fun n => readOne cfg inp.raw n) ∧
      ∀ n, (st'.domains n).intervals.length
        = (st.domains n).intervals.length
          + (if (cfg.pid = none ∨ 0 < tickRuntimeDiff cfg st inp)
                ∧ (readOne cfg inp.raw n).isSome = true then 1 else 0) := by
  have hgiff : (0 < tickRuntimeDiff cfg st inp ∨ cfg.pid = none)
      ↔ (cfg.pid = none ∨ 0 < tickRuntimeDiff cfg st inp) := or_comm
  by_cases hg : 0 < tickRuntimeDiff cfg st inp ∨ cfg.pid = none
  · obtain ⟨st1, heq1, hread1, hrt1, hlen1⟩ :=
      commitLoop_ok cfg inp (tickCpuVal cfg inp) domainNames (by decide) st hprev
    by_cases hpt : pidTruthy cfg = true
    · have hne := pidTruthy_ne_none hpt
      have heffi : effInfo cfg inp = inp.info := by simp [effInfo, hne]
      obtain ⟨i, hisome⟩ := Option.isSome_iff_exists.mp (hinfo hpt)
      refine ⟨{ st1 with lastRuntime := i.runtime
                         lastReadings := fun n => readOne cfg inp.raw n }, ?_, rfl, ?_⟩
      · simp only [step, if_pos hg, heq1, hpt, if_true, heffi, hisome]
      · intro n
        show (st1.domains n).intervals.length = _
        rw [hlen1 n]
        by_cases hs : (readOne cfg inp.raw n).isSome = true
        · simp [hs, readOne_isSome_mem hs, hgiff.mp hg]
        · simp [hs]
    · refine ⟨{ st1 with lastReadings := fun n => readOne cfg inp.raw n }, ?_, rfl, ?_⟩
      · simp only [step, if_pos hg, heq1, hpt]
        simp
      · intro n
        show (st1.domains n).intervals.length = _
        rw [hlen1 n]
        by_cases hs : (readOne cfg inp.raw n).isSome = true
        · simp [hs, readOne_isSome_mem hs, hgiff.mp hg]
        · simp [hs]
  · have hng : ¬ (cfg.pid = none ∨ 0 < tickRuntimeDiff cfg st inp) := fun hc => hg (hgiff.mpr hc)
    by_cases hpt : pidTruthy cfg = true
    · have hne := pidTruthy_ne_none hpt
      have heffi : effInfo cfg inp = inp.info := by simp [effInfo, hne]
      obtain ⟨i, hisome⟩ := Option.isSome_iff_exists.mp (hinfo hpt)
      refine ⟨{ st with lastRuntime := i.runtime
                        lastReadings := fun n => readOne cfg inp.raw n }, ?_, rfl, ?_⟩
      · simp only [step, if_neg hg, hpt, if_true, heffi, hisome]
      · intro n
        simp [hng]
    · refine ⟨{ st with lastReadings := fun n => readOne cfg inp.raw n }, ?_, rfl, ?_⟩
      · simp only [step, if_neg hg, hpt]
        simp
      · intro n
        simp [hng]

theorem step_skip_eq (cfg : Config) (st : TracerState) (inp : TickInput)
    (p : Int) (i : ProcInfo) (hp : cfg.pid = some p) (hp0 : p ≠ 0)
    (hi : inp.info = some i) (hz : i.runtime ≤ st.lastRuntime) :
    step cfg st inp = .ok { st with lastRuntime := i.runtime
                                    lastReadings := fun m => readOne cfg inp.raw m } := by
  have hpt : pidTruthy cfg = true := by simp [pidTruthy, hp, bne_iff_ne, hp0]
  have heff : effInfo cfg inp = some i := by simp [effInfo, hp, hi]
  have hdiff : tickRuntimeDiff cfg st inp = i.runtime - st.lastRuntime := by
    simp [tickRuntimeDiff, heff]
  have hng : ¬ (0 < tickRuntimeDiff cfg st inp ∨ cfg.pid = none) := by
    rw [hdiff, hp]
    simp
    omega
  simp only [step, if_neg hng, hpt, if_true, heff]

/-! ### Claim theorems about gating and skipping -/

/-- C6: on every elapsed tick (modelled by one `step`) on which no exception
fires — every answering domain has a previous reading, and process info is
present whenever the pid is truthy — a recording is committed for a domain
if and only if (no target process is configured, or the runtime delta of the
target since the previous tick is strictly positive) and that domain answered
its current read; in that case exactly one IntervalRecord is appended. With
`cfg.pid = none` the left disjunct holds, so every answering domain commits. -/
theorem c6_gating_iff (cfg : Config) (st : TracerState) (inp : TickInput)
    (hprev : ∀ m ∈ domainNames,
      (readOne cfg inp.raw m).isSome = true → (st.lastReadings m).isSome = true)
    (hinfo : pidTruthy cfg = true → inp.info.isSome = true)
    (n : String) :
    intervalsLenAfter (step cfg st inp) n
      = some ((st.domains n).intervals.length
          + (if (cfg.pid = none ∨ 0 < tickRuntimeDiff cfg st inp)
                ∧ (readOne cfg inp.raw n).isSome = true then 1 else 0)) := by
  obtain ⟨st', heq, _, hlen⟩ := step_ok_core cfg st inp hprev hinfo
  simp [intervalsLenAfter, heq, Except.toOption, hlen n]

def cfgW : Config := { pid := none, energyUnits := unitW, monitorCpu := 0 }

def baseW : String → Option Nat := fun n => if n = dPackage then some 1000 else none

def inpW : TickInput :=
  { time := 1, elapsed := 1, info := none
    raw := fun n => if n = dPackage then some 2000 else none }

/-- Witness for C6 at a concrete no-pid tick: the gate is open and the one
answering domain commits exactly one record. -/
theorem c6_gating_witness :
    intervalsLenAfter (step cfgW (initState cfgW baseW) inpW) dPackage
      = some (((initState cfgW baseW).domains dPackage).intervals.length
          + (if (cfgW.pid = none ∨ 0 < tickRuntimeDiff cfgW (initState cfgW baseW) inpW)
                ∧ (readOne cfgW inpW.raw dPackage).isSome = true then 1 else 0)) ∧
    intervalsLenAfter (step cfgW (initState cfgW baseW) inpW) dPackage = some 1 :=
  ⟨c6_gating_iff cfgW (initState cfgW baseW) inpW (by decide) (by decide) dPackage,
   by decide⟩

/-- C10: the gating baseline at loop entry is the literal `last_runtime = 0`,
not a snapshot of the process taken at trace start; hence with a pid
configured, the first elapsed tick commits (for each answering domain)
exactly when the lifetime cumulative runtime of the process is positive. -/
theorem c10_first_tick_baseline_zero (cfg : Config) (baselineRaw : String → Option Nat)
    (p : Int) (hp : cfg.pid = some p)
    (inp : TickInput) (i : ProcInfo) (hi : inp.info = some i)
    (hprev : ∀ m ∈ domainNames, (readOne cfg inp.raw m).isSome = true →
      (readOne cfg baselineRaw m).isSome = true)
    (n : String) :
    (initState cfg baselineRaw).lastRuntime = 0 ∧
    intervalsLenAfter (step cfg (initState cfg baselineRaw) inp) n
      = some (if 0 < i.runtime ∧ (readOne cfg inp.raw n).isSome = true then 1 else 0) := by
  refine ⟨rfl, ?_⟩
  obtain ⟨st', heq, _, hlen⟩ :=
    step_ok_core cfg (initState cfg baselineRaw) inp
      (fun m hm hs => hprev m hm hs)
      (fun _ => by simp [hi])
  have hd : tickRuntimeDiff cfg (initState cfg baselineRaw) inp = i.runtime := by
    simp [tickRuntimeDiff, effInfo, hp, hi, initState]
  rw [intervalsLenAfter, heq]
  have hz : ((initState cfg baselineRaw).domains n).intervals.length = 0 := rfl
  simp [Except.toOption, hlen n, hz, hd, hp]

def cfgWP : Config := { pid := some 5, energyUnits := unitW, monitorCpu := 0 }

def inpWP : TickInput :=
  { time := 1, elapsed := 1, info := some (infoW 7)
    raw := fun n => if n = dPackage then some 2000 else none }

/-- Witness for C10: pid 5 configured, lifetime runtime 7 at the first tick,
so the first tick commits one record for the answering domain. -/
theorem c10_first_tick_witness :
    ((initState cfgWP baseW).lastRuntime = 0 ∧
      intervalsLenAfter (step cfgWP (initState cfgWP baseW) inpWP) dPackage
        = some (if 0 < (infoW 7).runtime
              ∧ (readOne cfgWP inpWP.raw dPackage).isSome = true then 1 else 0)) ∧
    intervalsLenAfter (step cfgWP (initState cfgWP baseW) inpWP) dPackage = some 1 :=
  ⟨c10_first_tick_baseline_zero cfgWP baseW 5 rfl inpWP (infoW 7) rfl
      (by decide) dPackage,
   by decide⟩

/-- C3 (amended): on a tick skipped by the gating rule (pid configured and
truthy, runtime delta zero) no IntervalRecord is committed and no total
moves, but the `previous` readings advance to the current readings anyway —
so the next committed delta covers only the energy since the skipped tick,
and the energy consumed during the skipped tick is dropped from the totals. -/
theorem c3_skip_commits_nothing_and_advances (cfg : Config) (st : TracerState)
    (inp : TickInput) (p : Int) (i : ProcInfo)
    (hp : cfg.pid = some p) (hp0 : p ≠ 0) (hi : inp.info = some i)
    (hzero : i.runtime = st.lastRuntime) (n : String) :
    intervalsLenAfter (step cfg st inp) n = some ((st.domains n).intervals.length) ∧
    totalAfter (step cfg st inp) n = some ((st.domains n).totalEnergy) ∧
    lastReadingAfter (step cfg st inp) n = some (readOne cfg inp.raw n) := by
  have hstep := step_skip_eq cfg st inp p i hp hp0 hi (le_of_eq hzero)
  simp [intervalsLenAfter, totalAfter, lastReadingAfter, hstep, Except.toOption]

def inpWSkip : TickInput :=
  { time := 1, elapsed := 1, info := some (infoW 0)
    raw := fun n => if n = dPackage then some 2000 else none }

/-- Witness for C3 (amended) at a concrete skipped tick (pid 5, runtime
delta zero): nothing is committed and the previous readings advance. -/
theorem c3_skip_witness :
    (intervalsLenAfter (step cfgWP (initState cfgWP baseW) inpWSkip) dPackage
        = some (((initState cfgWP baseW).domains dPackage).intervals.length) ∧
      totalAfter (step cfgWP (initState cfgWP baseW) inpWSkip) dPackage
        = some (((initState cfgWP baseW).domains dPackage).totalEnergy) ∧
      lastReadingAfter (step cfgWP (initState cfgWP baseW) inpWSkip) dPackage
        = some (readOne cfgWP inpWSkip.raw dPackage)) ∧
    intervalsLenAfter (step cfgWP (initState cfgWP baseW) inpWSkip) dPackage = some 0 :=
  ⟨c3_skip_commits_nothing_and_advances cfgWP (initState cfgWP baseW) inpWSkip 5
      (infoW 0) rfl (by decide) rfl rfl dPackage,
   by decide⟩

/-- C5 (amended): a domain absent from the previous readings (for instance
because its baseline read failed) is not dropped: its counter is offered to
every subsequent tick, a successful read on a skipped tick re-enters it into
`last_readings`, and on the next committed tick it receives exactly one new
IntervalRecord. (If its first successful read lands on a committing tick
instead, the run aborts with a KeyError; see the C4 analysis.) -/
theorem c5_rejoin_after_skip (cfg : Config) (st : TracerState)
    (inp1 inp2 : TickInput) (p : Int) (i1 i2 : ProcInfo) (n : String)
    (v w : Nat)
    (hp : cfg.pid = some p) (hp0 : p ≠ 0)
    (_hbase : st.lastReadings n = none)
    (hn : n ∈ domainNames)
    (h1 : inp1.info = some i1) (hr1 : i1.runtime = st.lastRuntime)
    (hv : inp1.raw n = some v)
    (h2 : inp2.info = some i2) (hr2 : i1.runtime < i2.runtime)
    (hw : inp2.raw n = some w)
    (hothers : ∀ m ∈ domainNames, (readOne cfg inp2.raw m).isSome = true →
      (readOne cfg inp1.raw m).isSome = true) :
    lastReadingAfter (step cfg st inp1) n = some (some ((v : ℚ) * cfg.energyUnits)) ∧
    intervalsLenAfter (run cfg st [inp1, inp2]) n
      = some ((st.domains n).intervals.length + 1) := by
  have hstep1 := step_skip_eq cfg st inp1 p i1 hp hp0 h1 (le_of_eq hr1)
  constructor
  · simp [lastReadingAfter, hstep1, Except.toOption, readOne, hn, hv]
  · obtain ⟨st', heq2, _, hlen2⟩ :=
      step_ok_core cfg
        { st with lastRuntime := i1.runtime
                  lastReadings := fun m => readOne cfg inp1.raw m }
        inp2 (fun m hm hs => hothers m hm hs) (fun _ => by simp [h2])
    have hgate : cfg.pid = none
        ∨ 0 < tickRuntimeDiff cfg
            { st with lastRuntime := i1.runtime
                      lastReadings := fun m => readOne cfg inp1.raw m } inp2 := by
      refine Or.inr ?_
      have heff : effInfo cfg inp2 = some i2 := by
        simp [effInfo, hp, h2]
      simp [tickRuntimeDiff, heff]
      omega
    have hrun : run cfg st [inp1, inp2] = .ok st' := by
      simp only [run, hstep1, heq2]
    have hs : (readOne cfg inp2.raw n).isSome = true := by
      simp [readOne, hn, hw]
    simp [intervalsLenAfter, hrun, Except.toOption, hlen2 n, hgate, hs]

/-- Witness for C5 (amended): the dram baseline read failed, dram answers on
the skipped tick 1 (re-entering the previous readings) and receives one
record on committing tick 2. -/
theorem c5_rejoin_witness :
    (lastReadingAfter (step cfgC5 (initState cfgC5 baseC5) inpC5a) dDram
        = some (some ((500 : ℚ) * cfgC5.energyUnits)) ∧
      intervalsLenAfter (run cfgC5 (initState cfgC5 baseC5) [inpC5a, inpC5b]) dDram
        = some (((initState cfgC5 baseC5).domains dDram).intervals.length + 1)) ∧
    intervalsLenAfter (run cfgC5 (initState cfgC5 baseC5) [inpC5a, inpC5b]) dDram
      = some 1 :=
  ⟨c5_rejoin_after_skip cfgC5 (initState cfgC5 baseC5) inpC5a inpC5b 9
      (infoW 0) (infoW 5) dDram 500 700 rfl (by decide) (by decide) (by decide)
      rfl rfl (by decide) rfl (by decide) (by decide) (by decide),
   by decide⟩

/-! ### The prefix-sum invariant (C7) -/

/-- The invariant of one domain: `total_energy` equals the sum of the
`energy` fields of its committed intervals. -/
def domInv (d : DomainState) : Prop :=
  d.totalEnergy = (d.intervals.map (fun iv => iv.energy)).sum

/-- The invariant over all domains of the tracer state. -/
def stInv (st : TracerState) : Prop := ∀ n, domInv (st.domains n)

/-- The invariant read through a (possibly failed) run result; once the run
has aborted with an uncaught exception there is no further state to check. -/
def totalsMatch (r : Except StepError TracerState) : Prop :=
  match r with
  | .ok st => stInv st
  | .error _ => True

theorem commitDomain_inv {cfg : Config} {inp : TickInput} {cpuVal : Int}
    {st st' : TracerState} {n : String}
    (h : commitDomain cfg inp cpuVal st n = .ok st') (hinv : stInv st) : stInv st' := by
  cases hc : readOne cfg inp.raw n with
  | none =>
    simp only [commitDomain, hc] at h
    cases h
    exact hinv
  | some cur =>
    cases hp : st.lastReadings n with
    | none => simp [commitDomain, hc, hp] at h
    | some prev =>
      simp only [commitDomain, hc, hp, Except.ok.injEq] at h
      subst h
      intro m
      by_cases hm : m = n
      · subst hm
        show domInv (if m = m then _ else st.domains m)
        rw [if_pos rfl]
        have hn := hinv m
        rw [domInv] at hn ⊢
        simp [hn]
      · show domInv (if m = n then _ else st.domains m)
        rw [if_neg hm]
        exact hinv m

theorem commitLoop_inv {cfg : Config} {inp : TickInput} {cpuVal : Int} :
    ∀ {names : List String} {st st' : TracerState},
      commitLoop cfg inp cpuVal st names = .ok st' → stInv st → stInv st' := by
  intro names
  induction names with
  | nil =>
    intro st st' h hinv
    simp only [commitLoop, Except.ok.injEq] at h
    subst h
    exact hinv
  | cons a as ih =>
    intro st st' h hinv
    cases hc : commitDomain cfg inp cpuVal st a with
    | ok st1 =>
      simp only [commitLoop, hc] at h
      exact ih h (commitDomain_inv hc hinv)
    | error e => simp [commitLoop, hc] at h

theorem step_inv {cfg : Config} {st st' : TracerState} {inp : TickInput}
    (h : step cfg st inp = .ok st') (hinv : stInv st) : stInv st' := by
  simp only [step] at h
  by_cases hg : 0 < tickRuntimeDiff cfg st inp ∨ cfg.pid = none
  · rw [if_pos hg] at h
    cases hcl : commitLoop cfg inp (tickCpuVal cfg inp) st domainNames with
    | ok st1 =>
      simp only [hcl] at h
      have hinv1 : stInv st1 := commitLoop_inv hcl hinv
      by_cases hpt : pidTruthy cfg = true
      · simp only [hpt, if_true] at h
        cases hei : effInfo cfg inp with
        | some i =>
          simp only [hei, Except.ok.injEq] at h
          subst h
          exact hinv1
        | none =>
          simp only [hei] at h
          exact Except.noConfusion h
      · rw [if_neg hpt] at h
        simp only [Except.ok.injEq] at h
        subst h
        exact hinv1
    | error e =>
      simp only [hcl] at h
      exact Except.noConfusion h
  · simp only [if_neg hg] at h
    by_cases hpt : pidTruthy cfg = true
    · simp only [hpt, if_true] at h
      cases hei : effInfo cfg inp with
      | some i =>
        simp only [hei, Except.ok.injEq] at h
        subst h
        exact hinv
      | none =>
        simp only [hei] at h
        exact Except.noConfusion h
    · rw [if_neg hpt] at h
      simp only [Except.ok.injEq] at h
      subst h
      exact hinv

theorem run_inv {cfg : Config} :
    ∀ {inps : List TickInput} {st st' : TracerState},
      run cfg st inps = .ok st' → stInv st → stInv st' := by
  intro inps
  induction inps with
  | nil =>
    intro st st' h hinv
    simp only [run, Except.ok.injEq] at h
    subst h
    exact hinv
  | cons inp rest ih =>
    intro st st' h hinv
    cases hs : step cfg st inp with
    | ok st1 =>
      simp only [run, hs] at h
      exact ih h (step_inv hs hinv)
    | error e => simp [run, hs] at h

/-- C7: at every point of every run — i.e. after any list of elapsed ticks,
as long as no uncaught exception has fired — the cumulative `total_energy` of
every domain equals the sum of the `energy_delta` values of its committed
IntervalRecords (prefix-sum invariant, preserved by every commit). -/
theorem c7_prefix_sum_invariant (cfg : Config) (baselineRaw : String → Option Nat)
    (inps : List TickInput) :
    totalsMatch (run cfg (initState cfg baselineRaw) inps) := by
  cases hr : run cfg (initState cfg baselineRaw) inps with
  | error e =>
    rw [totalsMatch]
    trivial
  | ok st =>
    rw [totalsMatch]
    exact run_inv hr (fun n => rfl)

/-! ### Exporter claims (C8, C9) -/

theorem displayName_inj_on :
    ∀ m ∈ domainNames, ∀ k ∈ domainNames, displayName m = displayName k → m = k := by
  decide

/-- C8 (amended): the exported summary table holds one row per domain with at
least one committed interval — a tracked domain with zero intervals is
omitted — and the row of a nonempty domain carries its total energy and the
average, max and min of its committed powers. -/
theorem c8_summary_rows_characterization (st : TracerState) (n : String)
    (hn : n ∈ domainNames) :
    ((st.domains n).intervals.isEmpty = true →
      displayName n ∉ (summaryRows st).map (fun row => row.domain)) ∧
    ((st.domains n).intervals.isEmpty = false →
      ({ domain := displayName n
         totalEnergy := (st.domains n).totalEnergy
         avgPower := ((st.domains n).intervals.map (fun iv => iv.power)).sum
           / ((((st.domains n).intervals.map (fun iv => iv.power)).length : ℚ))
         maxPower := listMax ((st.domains n).intervals.map (fun iv => iv.power))
         minPower := listMin ((st.domains n).intervals.map (fun iv => iv.power)) } :
            SummaryRow)
        ∈ summaryRows st) := by
  constructor
  · intro hemp hmem
    rw [List.mem_map] at hmem
    obtain ⟨row, hrow, hdom⟩ := hmem
    rw [summaryRows, List.mem_filterMap] at hrow
    obtain ⟨m, hm, hsome⟩ := hrow
    by_cases hme : (st.domains m).intervals.isEmpty = true
    · simp [hme] at hsome
    · simp only [Bool.not_eq_true] at hme
      simp only [hme, Bool.false_eq_true, if_false, Option.some.injEq] at hsome
      have hdm : displayName m = displayName n := by
        rw [← hdom, ← hsome]
      have hmn : m = n := displayName_inj_on m hm n hn hdm
      subst hmn
      rw [hemp] at hme
      exact Bool.noConfusion hme
  · intro hemp
    rw [summaryRows, List.mem_filterMap]
    refine ⟨n, hn, ?_⟩
    simp [hemp]

/-- Witness for C8 (amended) at the all-empty initial state: no domain has a
row, in particular the package domain does not, and the summary is empty. -/
theorem c8_summary_witness :
    ((((initState cfgW baseW).domains dPackage).intervals.isEmpty = true →
      displayName dPackage ∉
        (summaryRows (initState cfgW baseW)).map (fun row => row.domain)) ∧
    (((initState cfgW baseW).domains dPackage).intervals.isEmpty = false →
      ({ domain := displayName dPackage
         totalEnergy := ((initState cfgW baseW).domains dPackage).totalEnergy
         avgPower := (((initState cfgW baseW).domains dPackage).intervals.map
             (fun iv => iv.power)).sum
           / (((((initState cfgW baseW).domains dPackage).intervals.map
             (fun iv => iv.power)).length : ℚ))
         maxPower := listMax (((initState cfgW baseW).domains dPackage).intervals.map
             (fun iv => iv.power))
         minPower := listMin (((initState cfgW baseW).domains dPackage).intervals.map
             (fun iv => iv.power)) } : SummaryRow)
        ∈ summaryRows (initState cfgW baseW))) ∧
    summaryRows (initState cfgW baseW) = [] :=
  ⟨c8_summary_rows_characterization (initState cfgW baseW) dPackage (by decide),
   by decide⟩

/-- C9: the energy matrix and the power matrix of `export_to_csv` hold
exactly the same timestamp row keys, in the same order, sorted ascending by
the numeric value of the key (not by string insertion order); and the cpu
column of the two matrices agrees row by row. -/
theorem c9_matrices_aligned (st : TracerState) :
    energyRowKeys st = powerRowKeys st ∧
    List.Sorted (fun a b => a ≤ b) (energyRowKeys st) ∧
    (energyTable st).map (fun r => r.1) = (powerTable st).map (fun r => r.1) ∧
    (energyTable st).map (fun r => r.2.2) = (powerTable st).map (fun r => r.2.2) := by
  refine ⟨rfl, Finset.sort_sorted _ _, ?_, ?_⟩
  · show ((energyRowKeys st).map (energyRow st)).map (fun r => r.1)
      = ((powerRowKeys st).map (powerRow st)).map (fun r => r.1)
    rw [List.map_map, List.map_map]
    rfl
  · show ((energyRowKeys st).map (energyRow st)).map (fun r => r.2.2)
      = ((powerRowKeys st).map (powerRow st)).map (fun r => r.2.2)
    rw [List.map_map, List.map_map]
    rfl

end Rapl
